import Mathlib

/-!
Shallow embedding of the MedStore Home Assistant custom integration
(`src/__init__.py`): the medication record store, its six service handlers
(`add`, `delete`, `update`, `toggle_active`, `add_refill`, `take_dose`),
the next-refill estimator, the midnight reset sweep and the post-delete
entity resync.

Modelling conventions:
- A Python dict field that may be absent is an `Option`; every
  `med.get(key, default)` in the source becomes `Option.getD` with the same
  default.
- Values arriving in a service payload are `PyVal`: either they coerce under
  Python `int(...)` or the coercion raises `ValueError`.
- Dates are epoch-day integers: `datetime.now()` is the parameter `today`,
  `+ timedelta(days=d)` is `+ d`, and the `strftime("%Y-%m-%d")` rendering is
  injective, so `next_refill` is stored as the epoch day itself.
- Python `//` on ints is floor division, `Int.fdiv`.
- Handlers that can raise return the meds list together with a flag telling
  whether an exception escaped; the list reflects every in-place mutation
  performed before the raise point.
-/

/-- A value in a service payload as seen by `int(...)` coercion: either it
coerces to an integer, or `int(...)` raises `ValueError`. -/
inductive PyVal where
  | vint (i : Int)
  | bad
deriving DecidableEq

/-- Python `int(data.get(key, default))`: a missing key yields the (integer)
default, a present value either coerces or raises (`none` = raises). -/
def coerceD : Option PyVal → Int → Option Int
  | none, d => some d
  | some (PyVal.vint i), _ => some i
  | some PyVal.bad, _ => none

/-- The `index` guard shared by the handlers: `call.data.get("index")` followed
by the `is None` check and `int(index)` inside `try/except`. `none` means the
handler returns silently (missing key or failed coercion). -/
def coerceIdx : Option PyVal → Option Int
  | some (PyVal.vint i) => some i
  | _ => none

/-- One medication record: the dict stored in `self.data["meds"]`. Every field
is optional because records loaded from storage or merged by `update` need not
carry every key; `add` always writes all of them. -/
structure Med where
  dose : Option Int := none
  doses_per_day : Option Int := none
  timing : Option (List String) := none
  doses_available : Option Int := none
  refills_available : Option Int := none
  doses_per_refill : Option Int := none
  next_refill : Option Int := none
  taken_count_per_dose : Option (List Int) := none
  all_taken : Option Bool := none
  active : Option Bool := none
deriving DecidableEq

/-- `MedStore._recalc_next_refill_for_entry`: `daily_need = doses_per_day *
dose`; `days_left = doses_available // daily_need` when `daily_need > 0` else
`0`; `next_refill = now + days_left` days. -/
def recalcNextRefill (today : Int) (med : Med) : Med :=
  let doses_available := med.doses_available.getD 0
  let dose_per_time := med.dose.getD 1
  let daily_need := med.doses_per_day.getD 1 * dose_per_time
  let days_left := if 0 < daily_need then Int.fdiv doses_available daily_need else 0
  { med with next_refill := some (today + days_left) }

/-- The `med_data` payload of the `add` service (fields the handler reads;
`name`, `strength` and `next_refill` do not influence any modelled state). -/
structure AddArgs where
  dose : Option PyVal := none
  doses_per_day : Option PyVal := none
  timing : Option (List String) := none
  doses_available : Option PyVal := none
  refills_available : Option PyVal := none
  doses_per_refill : Option PyVal := none
  taken_count_per_dose : Option (List Int) := none
  all_taken : Option Bool := none
  active : Option Bool := none
deriving DecidableEq

/-- `MedStore.add`: normalizes `med_data` into a fresh record and appends it.
The `int(...)` coercions in the record literal are not guarded, so a
non-numeric value raises `ValueError` before the append: the pair's flag is
`true` when the exception escapes, and the meds list is then unchanged.
Defaults follow the source: `dose` 1, `doses_per_day` `len(timing) if timing
else 1`, inventories 0, `taken_count_per_dose` `[0] * (len(timing) or 1)`,
`all_taken` `False`, `active` `True`. -/
def MedStore.add (today : Int) (a : AddArgs) (meds : List Med) :
    List Med × Bool :=
  let timing := a.timing.getD []
  match coerceD a.dose 1,
        coerceD a.doses_per_day (if timing.isEmpty then 1 else (timing.length : Int)),
        coerceD a.doses_available 0,
        coerceD a.refills_available 0,
        coerceD a.doses_per_refill 0 with
  | some dose, some dpd, some da, some ra, some dpr =>
    let med : Med :=
      { dose := some dose
        doses_per_day := some dpd
        timing := some timing
        doses_available := some da
        refills_available := some ra
        doses_per_refill := some dpr
        next_refill := none
        taken_count_per_dose :=
          some (a.taken_count_per_dose.getD (List.replicate (max timing.length 1) 0))
        all_taken := some (a.all_taken.getD false)
        active := some (a.active.getD true) }
    (meds ++ [recalcNextRefill today med], false)
  | _, _, _, _, _ => (meds, true)

/-- `MedStore.delete`: silently returns on a missing/invalid/out-of-range
index, otherwise `meds.pop(index)`. -/
def MedStore.delete (index : Option PyVal) (meds : List Med) : List Med :=
  match coerceIdx index with
  | none => meds
  | some i =>
    if 0 ≤ i ∧ i < (meds.length : Int) then meds.eraseIdx i.toNat else meds

/-- The `updates` payload of the `update` service: a partial record whose
present keys overwrite the stored record (`dict.update`). -/
structure Updates where
  dose : Option Int := none
  doses_per_day : Option Int := none
  timing : Option (List String) := none
  doses_available : Option Int := none
  refills_available : Option Int := none
  doses_per_refill : Option Int := none
  next_refill : Option Int := none
  taken_count_per_dose : Option (List Int) := none
  all_taken : Option Bool := none
  active : Option Bool := none
deriving DecidableEq

/-- `meds[index].update(updates)`: shallow key-by-key overwrite. -/
def applyUpdates (u : Updates) (m : Med) : Med :=
  { dose := u.dose.or m.dose
    doses_per_day := u.doses_per_day.or m.doses_per_day
    timing := u.timing.or m.timing
    doses_available := u.doses_available.or m.doses_available
    refills_available := u.refills_available.or m.refills_available
    doses_per_refill := u.doses_per_refill.or m.doses_per_refill
    next_refill := u.next_refill.or m.next_refill
    taken_count_per_dose := u.taken_count_per_dose.or m.taken_count_per_dose
    all_taken := u.all_taken.or m.all_taken
    active := u.active.or m.active }

/-- `MedStore.update`: silent on a missing/invalid index; on a valid index it
merges the partial fields and recomputes `next_refill`. -/
def MedStore.update (today : Int) (index : Option PyVal) (u : Updates)
    (meds : List Med) : List Med :=
  match coerceIdx index with
  | none => meds
  | some i =>
    if 0 ≤ i ∧ i < (meds.length : Int) then
      meds.set i.toNat (recalcNextRefill today (applyUpdates u (meds.getD i.toNat {})))
    else meds

/-- `MedStore.toggle_active`: silent on a missing/invalid index, otherwise
flips `active` (defaulting a missing flag to `True`). -/
def MedStore.toggle_active (index : Option PyVal) (meds : List Med) : List Med :=
  match coerceIdx index with
  | none => meds
  | some i =>
    if 0 ≤ i ∧ i < (meds.length : Int) then
      let m := meds.getD i.toNat {}
      meds.set i.toNat { m with active := some (! m.active.getD true) }
    else meds

/-- `MedStore.add_refill`: silent on a missing/invalid/out-of-range index.
On a valid index, `int(amount)` (default 0) is evaluated inside the branch and
is unguarded: a non-numeric amount raises before the assignment, leaving the
list unchanged (flag `true`). Otherwise `doses_available += amount`; if
`refills_available > 0` it becomes `max(0, refills_available - 1)`; then
`next_refill` is recomputed. -/
def MedStore.add_refill (today : Int) (index amount : Option PyVal)
    (meds : List Med) : List Med × Bool :=
  match coerceIdx index with
  | none => (meds, false)
  | some i =>
    if 0 ≤ i ∧ i < (meds.length : Int) then
      match coerceD amount 0 with
      | none => (meds, true)
      | some amt =>
        let m := meds.getD i.toNat {}
        let m1 := { m with doses_available := some (m.doses_available.getD 0 + amt) }
        let m2 :=
          if 0 < m1.refills_available.getD 0 then
            { m1 with refills_available := some (max 0 (m1.refills_available.getD 0 - 1)) }
          else m1
        (meds.set i.toNat (recalcNextRefill today m2), false)
    else (meds, false)

/-- The self-healing step of `take_dose`: a counter list shorter than the
timing list is zero-padded up to the timing length (and then written back);
a list of at least that length is used as is. -/
def padCounters (t : List Int) (n : Nat) : List Int :=
  if t.length < n then t ++ List.replicate (n - t.length) 0 else t

/-- `MedStore.take_dose`: silent on missing/invalid `index`/`dose_index`, on
an out-of-range index, and on a `dose_index` outside `[0, len(timing))`.
Otherwise `taken = med.get("taken_count_per_dose", [0]*len(timing))`:
- when the key is present, `taken` aliases the stored list; a shorter list is
  first zero-padded to `len(timing)` and written back, slot `dose_index` is
  bumped to `min(99999, old + 1)`, `doses_available` becomes
  `max(0, doses_available - dose)`, `all_taken` is recomputed from the stored
  list and `next_refill` is recomputed (flag `false`);
- when the key is absent, the fresh default list already has length
  `len(timing)`, so the increment lands on a transient list that is never
  stored; `doses_available` is still decremented, and the direct
  `med["taken_count_per_dose"]` access then raises `KeyError`, which escapes
  (flag `true`) before `all_taken`/`next_refill` are touched. -/
def MedStore.take_dose (today : Int) (index dose_index : Option PyVal)
    (meds : List Med) : List Med × Bool :=
  match coerceIdx index, coerceIdx dose_index with
  | some i, some di =>
    if 0 ≤ i ∧ i < (meds.length : Int) then
      let med := meds.getD i.toNat {}
      let timing := med.timing.getD []
      if 0 ≤ di ∧ di < (timing.length : Int) then
        match med.taken_count_per_dose with
        | some taken0 =>
          let taken1 := padCounters taken0 timing.length
          let taken2 := taken1.set di.toNat (min 99999 (taken1.getD di.toNat 0 + 1))
          let med1 :=
            { med with
              taken_count_per_dose := some taken2
              doses_available :=
                some (max 0 (med.doses_available.getD 0 - med.dose.getD 1))
              all_taken := some (taken2.all fun c => decide (1 ≤ c)) }
          (meds.set i.toNat (recalcNextRefill today med1), false)
        | none =>
          let med1 :=
            { med with
              doses_available :=
                some (max 0 (med.doses_available.getD 0 - med.dose.getD 1)) }
          (meds.set i.toNat med1, true)
      else (meds, false)
    else (meds, false)
  | _, _ => (meds, false)

/-- Loop body of `MedStore.async_midnight_reset`: a record with `active`
(default `True`) and `doses_per_day > 0` (default 0) gets its counters zeroed
to the width of `timing` and `all_taken` cleared; any other record is
untouched. -/
def resetMed (med : Med) : Med :=
  if med.active.getD true = true ∧ 0 < med.doses_per_day.getD 0 then
    { med with
      taken_count_per_dose := some (List.replicate (med.timing.getD []).length 0)
      all_taken := some false }
  else med

/-- `MedStore.async_midnight_reset`: the sweep over every stored record. -/
def MedStore.async_midnight_reset (meds : List Med) : List Med :=
  meds.map resetMed

/-- Ascending insertion used to model Python `sorted` on the key list. -/
def insertSortedKey (k : Nat) : List Nat → List Nat
  | [] => [k]
  | x :: xs => if k ≤ x then k :: x :: xs else x :: insertSortedKey k xs

/-- Python `sorted(keys)` on the remaining entity-map keys. -/
def sortKeys (l : List Nat) : List Nat := l.foldr insertSortedKey []

/-- `MedStore._sync_med_entities`: the index-to-entity map is an association
list in key-insertion order. First pass removes every entity whose key is not
in `range(len(meds))`; second pass walks the remaining keys in ascending order
and rebuilds the map with contiguous new keys `0, 1, ...`, each bound to the
entity stored under the corresponding old key. -/
def syncMedEntities {α : Type} (newLen : Nat) (ents : List (Nat × α)) :
    List (Nat × α) :=
  let kept := ents.filter fun p => decide (p.1 < newLen)
  (sortKeys (kept.map Prod.fst)).enum.filterMap fun p =>
    (kept.lookup p.2).map fun e => (p.1, e)

/-- A sequence of `take_dose` service calls (index, dose_index), applied in
order; each call sees the meds list the previous one produced. -/
def takeDoseSeq (today : Int) (calls : List (Option PyVal × Option PyVal))
    (meds : List Med) : List Med :=
  calls.foldl (fun ms c => (MedStore.take_dose today c.1 c.2 ms).1) meds

/-! Helper lemmas shared by the claim theorems. -/

theorem getD_set_self {α : Type} (l : List α) (n : Nat) (a d : α)
    (h : n < l.length) : (l.set n a).getD n d = a := by
  simp [List.getD_eq_getElem?_getD, List.getElem?_set_self h]

theorem getD_set_ne {α : Type} (l : List α) (m n : Nat) (a d : α)
    (h : m ≠ n) : (l.set m a).getD n d = l.getD n d := by
  simp [List.getD_eq_getElem?_getD, List.getElem?_set_ne h]

theorem toNat_lt_length {meds : List Med} {i : Int} (h0 : 0 ≤ i)
    (h1 : i < (meds.length : Int)) : i.toNat < meds.length :=
  (Int.toNat_lt h0).mpr h1

theorem recalc_doses_available (today : Int) (m : Med) :
    (recalcNextRefill today m).doses_available = m.doses_available := rfl

theorem recalc_refills_available (today : Int) (m : Med) :
    (recalcNextRefill today m).refills_available = m.refills_available := rfl

/-- C2: for every record (with the data-model constraint `doses_available ≥ 0`),
the recomputed `next_refill` is today plus `doses_available // (doses_per_day *
dose)` (integer division, truncating) when the daily need is positive, else
today; in particular dose 2, doses_per_day 2, doses_available 10 gives today
plus 2 days. -/
theorem medstore_c2_recalc (today : Int) (m : Med)
    (h : 0 ≤ m.doses_available.getD 0) :
    ((recalcNextRefill today m).next_refill =
      some (today +
        (if 0 < m.doses_per_day.getD 1 * m.dose.getD 1 then
          Int.tdiv (m.doses_available.getD 0) (m.doses_per_day.getD 1 * m.dose.getD 1)
        else 0))) ∧
    (m.dose = some 2 → m.doses_per_day = some 2 → m.doses_available = some 10 →
      (recalcNextRefill today m).next_refill = some (today + 2)) := by
  have key : (recalcNextRefill today m).next_refill =
      some (today +
        (if 0 < m.doses_per_day.getD 1 * m.dose.getD 1 then
          Int.tdiv (m.doses_available.getD 0) (m.doses_per_day.getD 1 * m.dose.getD 1)
        else 0)) := by
    simp only [recalcNextRefill]
    split
    · next hpos => rw [Int.fdiv_eq_tdiv h (le_of_lt hpos)]
    · rfl
  refine ⟨key, fun h1 h2 h3 => ?_⟩
  rw [key, h1, h2, h3]
  have h4 : Int.tdiv 10 4 = 2 := by decide
  norm_num [h4]

theorem medstore_c2_witness :
    (recalcNextRefill 5 { dose := some 2, doses_per_day := some 2, doses_available := some 10 }).next_refill = some 7 := by
  have h := medstore_c2_recalc 5 { dose := some 2, doses_per_day := some 2, doses_available := some 10 } (by decide)
  simpa using h.2 rfl rfl rfl

/-- C7: on a valid index, `add_refill` adds the (coerced) amount to that
record's `doses_available`; if `refills_available > 0` it becomes exactly one
less (the `max 0` floor never bites there), otherwise the field is untouched;
every other record is unchanged and no exception escapes. -/
theorem medstore_c7_add_refill (today : Int) (ia amt : Option PyVal)
    (meds : List Med) (i a : Int)
    (hi : coerceIdx ia = some i) (h0 : 0 ≤ i) (h1 : i < (meds.length : Int))
    (ha : coerceD amt 0 = some a) :
    ((MedStore.add_refill today ia amt meds).2 = false) ∧
    (((MedStore.add_refill today ia amt meds).1.getD i.toNat {}).doses_available
      = some ((meds.getD i.toNat {}).doses_available.getD 0 + a)) ∧
    (0 < (meds.getD i.toNat {}).refills_available.getD 0 →
      ((MedStore.add_refill today ia amt meds).1.getD i.toNat {}).refills_available
        = some ((meds.getD i.toNat {}).refills_available.getD 0 - 1)) ∧
    (¬ 0 < (meds.getD i.toNat {}).refills_available.getD 0 →
      ((MedStore.add_refill today ia amt meds).1.getD i.toNat {}).refills_available
        = (meds.getD i.toNat {}).refills_available) ∧
    (∀ j, j ≠ i.toNat →
      (MedStore.add_refill today ia amt meds).1.getD j {} = meds.getD j {}) := by
  have hlt : i.toNat < meds.length := toNat_lt_length h0 h1
  have hres : MedStore.add_refill today ia amt meds =
      (meds.set i.toNat (recalcNextRefill today
        (if 0 < (meds.getD i.toNat {}).refills_available.getD 0 then
          { meds.getD i.toNat {} with
            doses_available := some ((meds.getD i.toNat {}).doses_available.getD 0 + a)
            refills_available :=
              some (max 0 ((meds.getD i.toNat {}).refills_available.getD 0 - 1)) }
         else
          { meds.getD i.toNat {} with
            doses_available := some ((meds.getD i.toNat {}).doses_available.getD 0 + a) })),
        false) := by
    simp only [MedStore.add_refill, hi, ha]
    rw [if_pos ⟨h0, h1⟩]
  rw [hres]
  refine ⟨rfl, ?_, ?_, ?_, ?_⟩
  · rw [getD_set_self _ _ _ _ hlt, recalc_doses_available]
    split <;> rfl
  · intro hr
    rw [getD_set_self _ _ _ _ hlt, recalc_refills_available, if_pos hr]
    have hmax : max 0 ((meds.getD i.toNat ({} : Med)).refills_available.getD 0 - 1)
        = (meds.getD i.toNat ({} : Med)).refills_available.getD 0 - 1 := by omega
    show some (max 0 ((meds.getD i.toNat ({} : Med)).refills_available.getD 0 - 1)) = _
    rw [hmax]
  · intro hr
    rw [getD_set_self _ _ _ _ hlt, recalc_refills_available, if_neg hr]
  · intro j hj
    exact getD_set_ne _ _ _ _ _ (Ne.symm hj)

theorem medstore_c7_witness :
    (((MedStore.add_refill 0 (some (PyVal.vint 0)) (some (PyVal.vint 5))
        [{ doses_available := some 3, refills_available := some 1 }]).1.getD 0 {}).doses_available = some 8) ∧
    (((MedStore.add_refill 0 (some (PyVal.vint 0)) (some (PyVal.vint 5))
        [{ doses_available := some 3, refills_available := some 1 }]).1.getD 0 {}).refills_available = some 0) := by
  have h := medstore_c7_add_refill 0 (some (PyVal.vint 0)) (some (PyVal.vint 5))
    [{ doses_available := some 3, refills_available := some 1 }] 0 5
    rfl (by decide) (by decide) rfl
  exact ⟨by simpa using h.2.1, by simpa using h.2.2.1 (by decide)⟩

/-- C1 counterexample: `add_refill` on a valid index with a non-numeric
`amount` raises `ValueError` out of the handler (flag `true`), refuting the
claim that no validation failure lets an exception surface to the caller. -/
theorem medstore_c1_counterexample :
    MedStore.add_refill 0 (some (PyVal.vint 0)) (some PyVal.bad) [{}] = ([{}], true) := by
  decide

/-- C1 (amended): missing/invalid index failures and an out-of-range
`dose_index` are silent no-ops, but a value that fails `int(...)` coercion (a
non-numeric field in `add`, a non-numeric `amount` in `add_refill` on a valid
index) raises an exception that surfaces to the caller; even then the stored
meds list is unchanged, because the raise happens before any write. -/
theorem medstore_c1_amended :
    (∀ today (a : AddArgs) (meds : List Med),
      (coerceD a.dose 1 = none ∨
       coerceD a.doses_per_day
         (if (a.timing.getD []).isEmpty then 1 else ((a.timing.getD []).length : Int)) = none ∨
       coerceD a.doses_available 0 = none ∨
       coerceD a.refills_available 0 = none ∨
       coerceD a.doses_per_refill 0 = none) →
      MedStore.add today a meds = (meds, true)) ∧
    (∀ today ia amt (meds : List Med) (i : Int),
      coerceIdx ia = some i → 0 ≤ i → i < (meds.length : Int) →
      coerceD amt 0 = none →
      MedStore.add_refill today ia amt meds = (meds, true)) ∧
    (∀ today ia amt (meds : List Med), coerceIdx ia = none →
      MedStore.add_refill today ia amt meds = (meds, false)) ∧
    (∀ today ia da (meds : List Med) (i di : Int),
      coerceIdx ia = some i → 0 ≤ i → i < (meds.length : Int) →
      coerceIdx da = some di →
      ¬(0 ≤ di ∧ di < (((meds.getD i.toNat {}).timing.getD []).length : Int)) →
      MedStore.take_dose today ia da meds = (meds, false)) := by
  refine ⟨?_, ?_, ?_, ?_⟩
  · intro today a meds h
    rcases h1 : coerceD a.dose 1 with _ | d <;>
      rcases h2 : coerceD a.doses_per_day
        (if (a.timing.getD []).isEmpty then 1 else ((a.timing.getD []).length : Int)) with _ | p <;>
      rcases h3 : coerceD a.doses_available 0 with _ | v <;>
      rcases h4 : coerceD a.refills_available 0 with _ | r <;>
      rcases h5 : coerceD a.doses_per_refill 0 with _ | q <;>
      simp_all [MedStore.add]
  · intro today ia amt meds i hi h0 h1 ha
    simp only [MedStore.add_refill, hi, ha]
    rw [if_pos ⟨h0, h1⟩]
  · intro today ia amt meds hi
    simp [MedStore.add_refill, hi]
  · intro today ia da meds i di hi h0 h1 hd hr
    simp only [MedStore.take_dose, hi, hd]
    rw [if_pos ⟨h0, h1⟩, if_neg hr]

theorem medstore_c1_witness :
    (MedStore.add 0 { dose := some PyVal.bad } [] = ([], true)) ∧
    (MedStore.take_dose 0 (some (PyVal.vint 0)) (some (PyVal.vint 3))
      [{ timing := some ["a"] }] = ([{ timing := some ["a"] }], false)) := by
  have h := medstore_c1_amended
  refine ⟨h.1 0 { dose := some PyVal.bad } [] (Or.inl rfl), ?_⟩
  exact h.2.2.2 0 (some (PyVal.vint 0)) (some (PyVal.vint 3))
    [{ timing := some ["a"] }] 0 3 rfl (by decide) (by decide) rfl (by decide)

/-- C4: every operation that takes an index (`delete`, `update`,
`toggle_active`, `add_refill`, `take_dose`) leaves the meds sequence
completely unchanged, raising nothing, when the index is missing, fails
integer coercion, or falls outside `[0, len(meds))`. -/
theorem medstore_c4_invalid_index (today : Int) (ia amt da : Option PyVal)
    (u : Updates) (meds : List Med)
    (h : coerceIdx ia = none ∨
      ∃ i, coerceIdx ia = some i ∧ ¬(0 ≤ i ∧ i < (meds.length : Int))) :
    (MedStore.delete ia meds = meds) ∧
    (MedStore.update today ia u meds = meds) ∧
    (MedStore.toggle_active ia meds = meds) ∧
    (MedStore.add_refill today ia amt meds = (meds, false)) ∧
    (MedStore.take_dose today ia da meds = (meds, false)) := by
  rcases h with hi | ⟨i, hi, hr⟩
  · refine ⟨?_, ?_, ?_, ?_, ?_⟩ <;>
      simp only [MedStore.delete, MedStore.update, MedStore.toggle_active,
        MedStore.add_refill, MedStore.take_dose, hi]
  · refine ⟨?_, ?_, ?_, ?_, ?_⟩ <;>
      simp only [MedStore.delete, MedStore.update, MedStore.toggle_active,
        MedStore.add_refill, MedStore.take_dose, hi]
    · rw [if_neg hr]
    · rw [if_neg hr]
    · rw [if_neg hr]
    · rw [if_neg hr]
    · rcases coerceIdx da with _ | dj
      · rfl
      · simp [hr]

theorem medstore_c4_witness :
    (MedStore.delete (some (PyVal.vint 5)) [{}] = [{}]) ∧
    (MedStore.update 0 (some (PyVal.vint 5)) {} [{}] = [{}]) ∧
    (MedStore.toggle_active (some (PyVal.vint 5)) [{}] = [{}]) ∧
    (MedStore.add_refill 0 (some (PyVal.vint 5)) none [{}] = ([{}], false)) ∧
    (MedStore.take_dose 0 (some (PyVal.vint 5)) none [{}] = ([{}], false)) := by
  exact medstore_c4_invalid_index 0 (some (PyVal.vint 5)) none none {} [{}]
    (Or.inr ⟨5, rfl, by decide⟩)

/-- C10: calling `take_dose` with valid indices on a record whose dict lacks
the `taken_count_per_dose` key (and whose timing list is non-empty, so the
slot check passes): the increment lands only on the transient default list,
the stored record keeps no counter key, `doses_available` is decremented
first, and the direct `med["taken_count_per_dose"]` access raises a `KeyError`
that escapes the handler. -/
theorem medstore_c10_keyerror (today : Int) (ia da : Option PyVal)
    (meds : List Med) (i di : Int)
    (hi : coerceIdx ia = some i) (h0 : 0 ≤ i) (h1 : i < (meds.length : Int))
    (hd : coerceIdx da = some di) (d0 : 0 ≤ di)
    (d1 : di < (((meds.getD i.toNat {}).timing.getD []).length : Int))
    (hk : (meds.getD i.toNat {}).taken_count_per_dose = none) :
    MedStore.take_dose today ia da meds =
      (meds.set i.toNat
        { meds.getD i.toNat {} with
          doses_available :=
            some (max 0 ((meds.getD i.toNat {}).doses_available.getD 0
              - (meds.getD i.toNat {}).dose.getD 1)) }, true) := by
  simp only [MedStore.take_dose, hi, hd]
  rw [if_pos ⟨h0, h1⟩, if_pos ⟨d0, d1⟩, hk]

theorem medstore_c10_witness :
    MedStore.take_dose 0 (some (PyVal.vint 0)) (some (PyVal.vint 1))
      [{ timing := some ["a", "b"], doses_available := some 5, dose := some 2 }] =
    ([{ timing := some ["a", "b"], doses_available := some 3, dose := some 2 }], true) := by
  have h := medstore_c10_keyerror 0 (some (PyVal.vint 0)) (some (PyVal.vint 1))
    [{ timing := some ["a", "b"], doses_available := some 5, dose := some 2 }] 0 1
    rfl (by decide) (by decide) rfl (by decide) (by decide) rfl
  rw [h]
  decide

/-- C8: after the midnight reset the list length is unchanged; every record
with `active` (defaulted true) and `doses_per_day > 0` has its counters set to
all zeros of width `len(timing)` and `all_taken = false`, with every other
field untouched; every record failing that condition (inactive, or
`doses_per_day` not positive) is entirely unchanged. -/
theorem medstore_c8_reset (meds : List Med) (i : Nat) :
    ((MedStore.async_midnight_reset meds).length = meds.length) ∧
    (((meds.getD i {}).active.getD true = true ∧ 0 < (meds.getD i {}).doses_per_day.getD 0) →
      (MedStore.async_midnight_reset meds).getD i {} =
        { meds.getD i {} with
          taken_count_per_dose :=
            some (List.replicate ((meds.getD i {}).timing.getD []).length 0)
          all_taken := some false }) ∧
    (¬((meds.getD i {}).active.getD true = true ∧ 0 < (meds.getD i {}).doses_per_day.getD 0) →
      (MedStore.async_midnight_reset meds).getD i {} = meds.getD i {}) := by
  have hzero : resetMed ({} : Med) = ({} : Med) := by decide
  have hget : (MedStore.async_midnight_reset meds).getD i {} = resetMed (meds.getD i {}) := by
    unfold MedStore.async_midnight_reset
    calc (meds.map resetMed).getD i {}
        = (meds.map resetMed).getD i (resetMed {}) := by rw [hzero]
      _ = resetMed (meds.getD i {}) := List.getD_map _ _ _
  refine ⟨by simp [MedStore.async_midnight_reset], ?_, ?_⟩
  · intro hcond
    rw [hget]
    unfold resetMed
    rw [if_pos hcond]
  · intro hcond
    rw [hget]
    unfold resetMed
    rw [if_neg hcond]

theorem medstore_c8_witness :
    (MedStore.async_midnight_reset
      [{ timing := some ["a"], doses_per_day := some 1, taken_count_per_dose := some [7], all_taken := some true },
       { timing := some ["a"], doses_per_day := some 1, active := some false, taken_count_per_dose := some [7] }]).getD 0 {} =
      { timing := some ["a"], doses_per_day := some 1, taken_count_per_dose := some [0], all_taken := some false } ∧
    (MedStore.async_midnight_reset
      [{ timing := some ["a"], doses_per_day := some 1, taken_count_per_dose := some [7], all_taken := some true },
       { timing := some ["a"], doses_per_day := some 1, active := some false, taken_count_per_dose := some [7] }]).getD 1 {} =
      { timing := some ["a"], doses_per_day := some 1, active := some false, taken_count_per_dose := some [7] } := by
  constructor
  · have h := (medstore_c8_reset
      [{ timing := some ["a"], doses_per_day := some 1, taken_count_per_dose := some [7], all_taken := some true },
       { timing := some ["a"], doses_per_day := some 1, active := some false, taken_count_per_dose := some [7] }] 0).2.1 (by decide)
    rw [h]
    decide
  · have h := (medstore_c8_reset
      [{ timing := some ["a"], doses_per_day := some 1, taken_count_per_dose := some [7], all_taken := some true },
       { timing := some ["a"], doses_per_day := some 1, active := some false, taken_count_per_dose := some [7] }] 1).2.2 (by decide)
    rw [h]
    decide

theorem padCounters_length (t : List Int) (n : Nat) :
    (padCounters t n).length = max t.length n := by
  unfold padCounters
  split
  · next h =>
    rw [List.length_append, List.length_replicate]
    omega
  · next h => omega

theorem padCounters_mem {t : List Int} {n : Nat} {x : Int}
    (h : x ∈ padCounters t n) : x ∈ t ∨ x = 0 := by
  unfold padCounters at h
  split at h
  · rcases List.mem_append.mp h with h | h
    · exact Or.inl h
    · exact Or.inr (List.eq_of_mem_replicate h)
  · exact Or.inl h

/-- Branch equation for `take_dose` on a valid index and slot when the record
carries the `taken_count_per_dose` key: the stored (aliased or freshly padded)
list gets the capped increment, `doses_available` is floored at zero,
`all_taken` and `next_refill` are recomputed, nothing escapes. -/
theorem take_dose_some_eq (today : Int) (ia da : Option PyVal)
    (meds : List Med) (i di : Int) (taken0 : List Int)
    (hi : coerceIdx ia = some i) (h0 : 0 ≤ i) (h1 : i < (meds.length : Int))
    (hd : coerceIdx da = some di) (d0 : 0 ≤ di)
    (d1 : di < (((meds.getD i.toNat {}).timing.getD []).length : Int))
    (hk : (meds.getD i.toNat {}).taken_count_per_dose = some taken0) :
    MedStore.take_dose today ia da meds =
      (meds.set i.toNat (recalcNextRefill today
        { meds.getD i.toNat {} with
          taken_count_per_dose :=
            some ((padCounters taken0 ((meds.getD i.toNat {}).timing.getD []).length).set
              di.toNat
              (min 99999 ((padCounters taken0 ((meds.getD i.toNat {}).timing.getD []).length).getD di.toNat 0 + 1)))
          doses_available :=
            some (max 0 ((meds.getD i.toNat {}).doses_available.getD 0
              - (meds.getD i.toNat {}).dose.getD 1))
          all_taken :=
            some (((padCounters taken0 ((meds.getD i.toNat {}).timing.getD []).length).set
              di.toNat
              (min 99999 ((padCounters taken0 ((meds.getD i.toNat {}).timing.getD []).length).getD di.toNat 0 + 1))).all
                fun c => decide (1 ≤ c)) }), false) := by
  simp only [MedStore.take_dose, hi, hd]
  rw [if_pos ⟨h0, h1⟩, if_pos ⟨d0, d1⟩, hk]

/-- Branch equation for `take_dose` on a valid index and slot when the record
lacks the `taken_count_per_dose` key: only `doses_available` is written before
the `KeyError` escapes. -/
theorem take_dose_none_eq (today : Int) (ia da : Option PyVal)
    (meds : List Med) (i di : Int)
    (hi : coerceIdx ia = some i) (h0 : 0 ≤ i) (h1 : i < (meds.length : Int))
    (hd : coerceIdx da = some di) (d0 : 0 ≤ di)
    (d1 : di < (((meds.getD i.toNat {}).timing.getD []).length : Int))
    (hk : (meds.getD i.toNat {}).taken_count_per_dose = none) :
    MedStore.take_dose today ia da meds =
      (meds.set i.toNat
        { meds.getD i.toNat {} with
          doses_available :=
            some (max 0 ((meds.getD i.toNat {}).doses_available.getD 0
              - (meds.getD i.toNat {}).dose.getD 1)) }, true) := by
  simp only [MedStore.take_dose, hi, hd]
  rw [if_pos ⟨h0, h1⟩, if_pos ⟨d0, d1⟩, hk]

/-- Case analysis of an arbitrary `take_dose` call: either the meds list is
returned untouched, or exactly one record (at a valid position) is replaced;
the replacement's `doses_available` is the floored decrement, and its counter
list is either the untouched original or a list whose members are old members
or values at most 99999. -/
theorem take_dose_shape (today : Int) (ia da : Option PyVal) (meds : List Med) :
    (MedStore.take_dose today ia da meds).1 = meds ∨
    ∃ (n : Nat) (newMed : Med), n < meds.length ∧
      (MedStore.take_dose today ia da meds).1 = meds.set n newMed ∧
      newMed.doses_available
        = some (max 0 ((meds.getD n {}).doses_available.getD 0
            - (meds.getD n {}).dose.getD 1)) ∧
      (newMed.taken_count_per_dose = (meds.getD n {}).taken_count_per_dose ∨
        ∀ x ∈ newMed.taken_count_per_dose.getD [],
          x ∈ (meds.getD n {}).taken_count_per_dose.getD [] ∨ x ≤ 99999) := by
  rcases hia : coerceIdx ia with _ | i
  · left
    simp [MedStore.take_dose, hia]
  rcases hda : coerceIdx da with _ | di
  · left
    simp [MedStore.take_dose, hia, hda]
  by_cases hr : 0 ≤ i ∧ i < (meds.length : Int)
  · by_cases hs : 0 ≤ di ∧ di < (((meds.getD i.toNat {}).timing.getD []).length : Int)
    · have hn : i.toNat < meds.length := toNat_lt_length hr.1 hr.2
      rcases hk : (meds.getD i.toNat {}).taken_count_per_dose with _ | t0
      · right
        exact ⟨i.toNat, _, hn, congrArg Prod.fst
          (take_dose_none_eq today ia da meds i di hia hr.1 hr.2 hda hs.1 hs.2 hk), rfl, Or.inl rfl⟩
      · right
        refine ⟨i.toNat, _, hn, congrArg Prod.fst
          (take_dose_some_eq today ia da meds i di t0 hia hr.1 hr.2 hda hs.1 hs.2 hk), rfl, Or.inr ?_⟩
        intro x hx
        have hx2 := List.mem_or_eq_of_mem_set hx
        rcases hx2 with hx2 | hx2
        · rcases padCounters_mem hx2 with h3 | h3
          · left
            rw [hk]
            exact h3
          · right
            omega
        · right
          have := min_le_left (99999 : Int)
            ((padCounters t0 ((meds.getD i.toNat {}).timing.getD []).length).getD di.toNat 0 + 1)
          omega
    · left
      simp only [MedStore.take_dose, hia, hda]
      rw [if_pos hr, if_neg hs]
  · left
    simp only [MedStore.take_dose, hia, hda]
    rw [if_neg hr]

theorem recalc_taken (today : Int) (m : Med) :
    (recalcNextRefill today m).taken_count_per_dose = m.taken_count_per_dose := rfl

theorem recalc_timing (today : Int) (m : Med) :
    (recalcNextRefill today m).timing = m.timing := rfl

/-- One `take_dose` call keeps every record's `doses_available` nonnegative
(whenever it writes the field at all, it writes `max 0 (...)`). -/
theorem take_dose_preserves_da_nonneg (today : Int) (ia da : Option PyVal)
    (meds : List Med)
    (h : ∀ j, 0 ≤ (meds.getD j ({} : Med)).doses_available.getD 0) :
    ∀ j, 0 ≤ ((MedStore.take_dose today ia da meds).1.getD j {}).doses_available.getD 0 := by
  intro j
  rcases take_dose_shape today ia da meds with hu | ⟨n, nm, hn, heq, hda, _⟩
  · rw [hu]
    exact h j
  · rw [heq]
    by_cases hj : n = j
    · subst hj
      rw [getD_set_self _ _ _ _ hn, hda]
      simp only [Option.getD_some]
      exact le_max_left 0 _
    · rw [getD_set_ne _ _ _ _ _ hj]
      exact h j

/-- One `take_dose` call keeps every counter entry at most 99999, provided
all entries were at most 99999 before. -/
theorem take_dose_preserves_cap (today : Int) (ia da : Option PyVal)
    (meds : List Med)
    (h : ∀ j x, x ∈ (meds.getD j ({} : Med)).taken_count_per_dose.getD [] → x ≤ 99999) :
    ∀ j x, x ∈ ((MedStore.take_dose today ia da meds).1.getD j {}).taken_count_per_dose.getD [] →
      x ≤ 99999 := by
  intro j x hx
  rcases take_dose_shape today ia da meds with hu | ⟨n, nm, hn, heq, _, htk⟩
  · rw [hu] at hx
    exact h j x hx
  · rw [heq] at hx
    by_cases hj : n = j
    · subst hj
      rw [getD_set_self _ _ _ _ hn] at hx
      rcases htk with htk | htk
      · rw [htk] at hx
        exact h n x hx
      · rcases htk x hx with hmem | hle
        · exact h n x hmem
        · exact hle
    · rw [getD_set_ne _ _ _ _ _ hj] at hx
      exact h j x hx

/-- C5: a `take_dose` call with valid index and dose_index sets the target
record's `doses_available` to `max 0 (doses_available - dose)`, hence never
negative; and over any sequence of `take_dose` calls, records whose
`doses_available` starts nonnegative stay nonnegative. -/
theorem medstore_c5_floor :
    (∀ today ia da (meds : List Med) (i di : Int),
      coerceIdx ia = some i → 0 ≤ i → i < (meds.length : Int) →
      coerceIdx da = some di → 0 ≤ di →
      di < (((meds.getD i.toNat {}).timing.getD []).length : Int) →
      (((MedStore.take_dose today ia da meds).1.getD i.toNat {}).doses_available
        = some (max 0 ((meds.getD i.toNat {}).doses_available.getD 0
            - (meds.getD i.toNat {}).dose.getD 1))) ∧
      0 ≤ ((MedStore.take_dose today ia da meds).1.getD i.toNat {}).doses_available.getD 0) ∧
    (∀ today calls (meds : List Med),
      (∀ j, 0 ≤ (meds.getD j ({} : Med)).doses_available.getD 0) →
      ∀ j, 0 ≤ ((takeDoseSeq today calls meds).getD j {}).doses_available.getD 0) := by
  constructor
  · intro today ia da meds i di hi h0 h1 hd d0 d1
    have hn : i.toNat < meds.length := toNat_lt_length h0 h1
    have key : ((MedStore.take_dose today ia da meds).1.getD i.toNat {}).doses_available
        = some (max 0 ((meds.getD i.toNat {}).doses_available.getD 0
            - (meds.getD i.toNat {}).dose.getD 1)) := by
      rcases hk : (meds.getD i.toNat ({} : Med)).taken_count_per_dose with _ | t0
      · rw [take_dose_none_eq today ia da meds i di hi h0 h1 hd d0 d1 hk]
        rw [getD_set_self _ _ _ _ hn]
      · rw [take_dose_some_eq today ia da meds i di t0 hi h0 h1 hd d0 d1 hk]
        rw [getD_set_self _ _ _ _ hn, recalc_doses_available]
    refine ⟨key, ?_⟩
    rw [key]
    simp only [Option.getD_some]
    exact le_max_left 0 _
  · intro today calls
    induction calls with
    | nil => intro meds h j; exact h j
    | cons c cs ih =>
      intro meds h j
      exact ih (MedStore.take_dose today c.1 c.2 meds).1
        (take_dose_preserves_da_nonneg today c.1 c.2 meds h) j

theorem medstore_c5_witness :
    ((MedStore.take_dose 0 (some (PyVal.vint 0)) (some (PyVal.vint 0))
      [{ timing := some ["a"], doses_available := some 1, dose := some 2,
         taken_count_per_dose := some [0] }]).1.getD 0 {}).doses_available = some 0 := by
  have h := (medstore_c5_floor.1 0 (some (PyVal.vint 0)) (some (PyVal.vint 0))
    [{ timing := some ["a"], doses_available := some 1, dose := some 2,
       taken_count_per_dose := some [0] }] 0 0 rfl (by decide) (by decide) rfl
    (by decide) (by decide)).1
  exact h.trans (by decide)

/-- C6: a `take_dose` call with valid indices on a record carrying a counter
list writes `min 99999 (old + 1)` into the target slot, so the slot never
exceeds 99999 after the call; and over any sequence of `take_dose` calls,
counter lists whose entries are all at most 99999 keep that bound. -/
theorem medstore_c6_cap :
    (∀ today ia da (meds : List Med) (i di : Int) (t0 : List Int),
      coerceIdx ia = some i → 0 ≤ i → i < (meds.length : Int) →
      coerceIdx da = some di → 0 ≤ di →
      di < (((meds.getD i.toNat {}).timing.getD []).length : Int) →
      (meds.getD i.toNat {}).taken_count_per_dose = some t0 →
      ((((MedStore.take_dose today ia da meds).1.getD i.toNat {}).taken_count_per_dose.getD []).getD di.toNat 0
        = min 99999 ((padCounters t0 ((meds.getD i.toNat {}).timing.getD []).length).getD di.toNat 0 + 1)) ∧
      (((MedStore.take_dose today ia da meds).1.getD i.toNat {}).taken_count_per_dose.getD []).getD di.toNat 0
        ≤ 99999) ∧
    (∀ today calls (meds : List Med),
      (∀ j x, x ∈ (meds.getD j ({} : Med)).taken_count_per_dose.getD [] → x ≤ 99999) →
      ∀ j x, x ∈ ((takeDoseSeq today calls meds).getD j {}).taken_count_per_dose.getD [] →
        x ≤ 99999) := by
  constructor
  · intro today ia da meds i di t0 hi h0 h1 hd d0 d1 hk
    have hn : i.toNat < meds.length := toNat_lt_length h0 h1
    have hdn : di.toNat < ((meds.getD i.toNat ({} : Med)).timing.getD []).length :=
      (Int.toNat_lt d0).mpr d1
    have hdn2 : di.toNat <
        (padCounters t0 ((meds.getD i.toNat ({} : Med)).timing.getD []).length).length := by
      rw [padCounters_length]
      omega
    have key : ((MedStore.take_dose today ia da meds).1.getD i.toNat {}).taken_count_per_dose
        = some ((padCounters t0 ((meds.getD i.toNat {}).timing.getD []).length).set di.toNat
            (min 99999 ((padCounters t0 ((meds.getD i.toNat {}).timing.getD []).length).getD di.toNat 0 + 1))) := by
      rw [take_dose_some_eq today ia da meds i di t0 hi h0 h1 hd d0 d1 hk]
      rw [getD_set_self _ _ _ _ hn, recalc_taken]
    rw [key]
    simp only [Option.getD_some]
    rw [getD_set_self _ _ _ _ hdn2]
    refine ⟨rfl, ?_⟩
    exact min_le_left _ _
  · intro today calls
    induction calls with
    | nil => intro meds h j; exact h j
    | cons c cs ih =>
      intro meds h j
      exact ih (MedStore.take_dose today c.1 c.2 meds).1
        (take_dose_preserves_cap today c.1 c.2 meds h) j

theorem medstore_c6_witness :
    (((MedStore.take_dose 0 (some (PyVal.vint 0)) (some (PyVal.vint 0))
      [{ timing := some ["a"], taken_count_per_dose := some [99999] }]).1.getD 0 {}).taken_count_per_dose.getD []).getD 0 0
      ≤ 99999 := by
  have h := (medstore_c6_cap.1 0 (some (PyVal.vint 0)) (some (PyVal.vint 0))
    [{ timing := some ["a"], taken_count_per_dose := some [99999] }] 0 0 [99999]
    rfl (by decide) (by decide) rfl (by decide) (by decide) rfl).2
  exact h

theorem reset_getD (meds : List Med) (i : Nat) :
    (MedStore.async_midnight_reset meds).getD i {} = resetMed (meds.getD i {}) := by
  have hzero : resetMed ({} : Med) = ({} : Med) := by decide
  unfold MedStore.async_midnight_reset
  calc (meds.map resetMed).getD i {}
      = (meds.map resetMed).getD i (resetMed {}) := by rw [hzero]
    _ = resetMed (meds.getD i {}) := List.getD_map _ _ _

/-- C3 counterexample: a record added with an empty timing list gets
`taken_count_per_dose = [0]` (from the `[0] * (len(timing) or 1)` default), so
its counter list has length 1 while its timing list has length 0 — the
invariant `len(taken_count_per_dose) == len(timing)` fails right after `add`. -/
theorem medstore_c3_counterexample :
    ((((MedStore.add 0 { timing := some [] } []).1.getD 0 {}).taken_count_per_dose.getD []).length = 1) ∧
    ((((MedStore.add 0 { timing := some [] } []).1.getD 0 {}).timing.getD []).length = 0) ∧
    ¬((((MedStore.add 0 { timing := some [] } []).1.getD 0 {}).taken_count_per_dose.getD []).length
        = (((MedStore.add 0 { timing := some [] } []).1.getD 0 {}).timing.getD []).length) := by
  decide

/-- C3 (amended): after `add` with the default counter normalization the
counter width is `max(len(timing), 1)` — equal to `len(timing)` only when
timing is non-empty; after the daily reset every reset record satisfies
`len(taken_count_per_dose) == len(timing)`; and a successful `take_dose`
zero-pads a not-longer counter list up to exactly `len(timing)`. -/
theorem medstore_c3_amended :
    (∀ today (a : AddArgs) (meds : List Med) (d p v r q : Int),
      a.taken_count_per_dose = none →
      coerceD a.dose 1 = some d →
      coerceD a.doses_per_day
        (if (a.timing.getD []).isEmpty then 1 else ((a.timing.getD []).length : Int)) = some p →
      coerceD a.doses_available 0 = some v →
      coerceD a.refills_available 0 = some r →
      coerceD a.doses_per_refill 0 = some q →
      ∃ m, (MedStore.add today a meds).1 = meds ++ [m] ∧
        m.timing = some (a.timing.getD []) ∧
        (m.taken_count_per_dose.getD []).length = max (a.timing.getD []).length 1) ∧
    (∀ (meds : List Med) (i : Nat),
      ((meds.getD i {}).active.getD true = true ∧ 0 < (meds.getD i {}).doses_per_day.getD 0) →
      (((MedStore.async_midnight_reset meds).getD i {}).taken_count_per_dose.getD []).length
        = (((MedStore.async_midnight_reset meds).getD i {}).timing.getD []).length) ∧
    (∀ today ia da (meds : List Med) (i di : Int) (t0 : List Int),
      coerceIdx ia = some i → 0 ≤ i → i < (meds.length : Int) →
      coerceIdx da = some di → 0 ≤ di →
      di < (((meds.getD i.toNat {}).timing.getD []).length : Int) →
      (meds.getD i.toNat {}).taken_count_per_dose = some t0 →
      t0.length ≤ ((meds.getD i.toNat {}).timing.getD []).length →
      (((MedStore.take_dose today ia da meds).1.getD i.toNat {}).taken_count_per_dose.getD []).length
        = (((MedStore.take_dose today ia da meds).1.getD i.toNat {}).timing.getD []).length) := by
  refine ⟨?_, ?_, ?_⟩
  · intro today a meds d p v r q htk h1 h2 h3 h4 h5
    simp only [MedStore.add, h1, h2, h3, h4, h5]
    refine ⟨_, rfl, rfl, ?_⟩
    rw [recalc_taken]
    show ((some (a.taken_count_per_dose.getD
      (List.replicate (max (a.timing.getD []).length 1) 0))).getD []).length = _
    rw [htk]
    simp [List.length_replicate]
  · intro meds i hcond
    rw [reset_getD]
    unfold resetMed
    rw [if_pos hcond]
    show (List.replicate ((meds.getD i ({} : Med)).timing.getD []).length 0).length
      = ((meds.getD i ({} : Med)).timing.getD []).length
    rw [List.length_replicate]
  · intro today ia da meds i di t0 hi h0 h1 hd d0 d1 hk hlen
    have hn : i.toNat < meds.length := toNat_lt_length h0 h1
    rw [take_dose_some_eq today ia da meds i di t0 hi h0 h1 hd d0 d1 hk]
    rw [getD_set_self _ _ _ _ hn, recalc_taken, recalc_timing]
    simp only [Option.getD_some]
    rw [List.length_set, padCounters_length]
    show max t0.length ((meds.getD i.toNat ({} : Med)).timing.getD []).length
      = ((meds.getD i.toNat ({} : Med)).timing.getD []).length
    omega

theorem medstore_c3_witness :
    (((MedStore.async_midnight_reset
      [{ timing := some ["a", "b"], doses_per_day := some 1, taken_count_per_dose := some [5] }]).getD 0 {}).taken_count_per_dose.getD []).length
      = (((MedStore.async_midnight_reset
      [{ timing := some ["a", "b"], doses_per_day := some 1, taken_count_per_dose := some [5] }]).getD 0 {}).timing.getD []).length := by
  exact medstore_c3_amended.2.1
    [{ timing := some ["a", "b"], doses_per_day := some 1, taken_count_per_dose := some [5] }] 0
    (by decide)

theorem insertSortedKey_of_le (k : Nat) (l : List Nat) (h : ∀ x ∈ l, k ≤ x) :
    insertSortedKey k l = k :: l := by
  cases l with
  | nil => rfl
  | cons x xs =>
    unfold insertSortedKey
    rw [if_pos (h x (List.mem_cons_self x xs))]

theorem sortKeys_eq_self (l : List Nat) (h : l.Pairwise (· ≤ ·)) :
    sortKeys l = l := by
  induction l with
  | nil => rfl
  | cons x xs ih =>
    have hx : ∀ y ∈ xs, x ≤ y := (List.pairwise_cons.mp h).1
    have : sortKeys (x :: xs) = insertSortedKey x (sortKeys xs) := rfl
    rw [this, ih (List.pairwise_cons.mp h).2, insertSortedKey_of_le x xs hx]

theorem lookup_enum_reindex {α : Type} :
    ∀ (l : List (Nat × α)) (s : Nat), l.Pairwise (fun p q => p.1 < q.1) →
      ((l.map Prod.fst).enumFrom s).filterMap
        (fun p => (l.lookup p.2).map fun e => (p.1, e))
      = (List.enumFrom s l).map fun q => (q.1, q.2.2) := by
  intro l
  induction l with
  | nil => intro s _; rfl
  | cons hd rest ih =>
    intro s hp
    rcases hd with ⟨k, e⟩
    have hklt : ∀ q ∈ rest, k < q.1 := by
      intro q hq
      exact (List.pairwise_cons.mp hp).1 q hq
    rw [List.map_cons, List.enumFrom_cons, List.filterMap_cons]
    have hhd : (((k, e) :: rest).lookup k).map (fun x => ((s, k).1, x)) = some (s, e) := by
      simp [List.lookup]
    rw [hhd]
    have hcongr : ((rest.map Prod.fst).enumFrom (s + 1)).filterMap
          (fun p => (((k, e) :: rest).lookup p.2).map fun x => (p.1, x))
        = ((rest.map Prod.fst).enumFrom (s + 1)).filterMap
          (fun p => (rest.lookup p.2).map fun x => (p.1, x)) := by
      apply List.filterMap_congr
      intro p hpmem
      have h2 : p.2 ∈ rest.map Prod.fst := List.snd_mem_of_mem_enumFrom hpmem
      rcases List.mem_map.mp h2 with ⟨q, hq, hq2⟩
      have hne : p.2 ≠ k := by
        have := hklt q hq
        omega
      have hbeq : (p.2 == k) = false := beq_eq_false_iff_ne.mpr hne
      simp [List.lookup, hbeq]
    rw [hcongr, ih (s + 1) (List.pairwise_cons.mp hp).2, List.enumFrom_cons, List.map_cons]

/-- C9 counterexample: deleting index 1 of a 3-record sequence (new length 2)
with entities keyed 0, 1, 2 removes the entity keyed 2 outright — it is not
renumbered to key 1; the surviving key-1 entity is the stale one that
presented the deleted record. -/
theorem medstore_c9_counterexample :
    (syncMedEntities 2 [(0, 10), (1, 20), (2, 30)] = [(0, 10), (1, 20)]) ∧
    ¬((syncMedEntities 2 [(0, 10), (1, 20), (2, 30)]).lookup 1 = some 30) := by
  decide

/-- C9 (amended): the resync pass removes exactly the entities keyed at or
beyond the new meds length, and renumbers the survivors in ascending key order
to the contiguous range over their own count, preserving relative order; an
entity keyed at or beyond the new length is removed, not renumbered. -/
theorem medstore_c9_amended {α : Type} (newLen : Nat) (ents : List (Nat × α))
    (hs : ents.Pairwise (fun p q => p.1 < q.1)) :
    (syncMedEntities newLen ents
      = (ents.filter fun p => decide (p.1 < newLen)).enum.map fun q => (q.1, q.2.2)) ∧
    ((syncMedEntities newLen ents).map Prod.fst
      = List.range (ents.filter fun p => decide (p.1 < newLen)).length) ∧
    ((syncMedEntities newLen ents).map Prod.snd
      = (ents.filter fun p => decide (p.1 < newLen)).map Prod.snd) := by
  have hkept : (ents.filter fun p => decide (p.1 < newLen)).Pairwise (fun p q => p.1 < q.1) :=
    hs.filter _
  have hkeys : ((ents.filter fun p => decide (p.1 < newLen)).map Prod.fst).Pairwise (· < ·) :=
    List.pairwise_map.mpr hkept
  have hmain : syncMedEntities newLen ents
      = (ents.filter fun p => decide (p.1 < newLen)).enum.map fun q => (q.1, q.2.2) := by
    simp only [syncMedEntities]
    rw [sortKeys_eq_self _ (hkeys.imp le_of_lt)]
    exact lookup_enum_reindex (ents.filter fun p => decide (p.1 < newLen)) 0 hkept
  refine ⟨hmain, ?_, ?_⟩
  · rw [hmain, List.map_map]
    have hcomp : (Prod.fst ∘ fun q : Nat × (Nat × α) => (q.1, q.2.2)) = Prod.fst := by
      funext q
      rfl
    rw [hcomp, List.enum_map_fst]
  · rw [hmain, List.map_map]
    have hcomp : (Prod.snd ∘ fun q : Nat × (Nat × α) => (q.1, q.2.2))
        = Prod.snd ∘ (Prod.snd : Nat × (Nat × α) → Nat × α) := by
      funext q
      rfl
    rw [hcomp, ← List.map_map, List.enum_map_snd]

theorem medstore_c9_witness :
    syncMedEntities 2 [(0, 10), (1, 20), (2, 30)]
      = ([(0, 10), (1, 20), (2, 30)].filter fun p => decide (p.1 < 2)).enum.map
          fun q => (q.1, q.2.2) := by
  exact (medstore_c9_amended 2 [(0, 10), (1, 20), (2, 30)] (by decide)).1
